import Mathlib

/-!
Verification of the secure-read-and-budget subsystem (`utils/file_utils.py`):
path translation and sandbox validation, directory expansion, single-file
reading with placeholder blocks, and token-budgeted multi-file assembly.

Python strings are modelled as Lean `String`; filesystem paths as `PyPath`
(the `absolute` anchor plus the list of components, mirroring
`pathlib.PurePosixPath.parts`).  The filesystem itself (symlink resolution,
existence, directory listings, sizes, contents) is an explicit `FS` record of
functions, and the process-wide configuration is an `Env` record, so every
operation of the module becomes a pure function of `Env`, `FS` and its
arguments.  String helpers (split, join, lower, trim, ...) are defined by
structural recursion so that all definitions evaluate inside the kernel.
-/

/-- Join a list of strings with a separator, like Python `sep.join(xs)`. -/
def joinWith (sep : String) : List String → String
  | [] => ""
  | [x] => x
  | x :: xs => x ++ sep ++ joinWith sep xs

/-- Python `s.startswith(t)`: `t` is a prefix of the character sequence of `s`. -/
def strStartsWith (s t : String) : Bool :=
  t.data.isPrefixOf s.data

/-- Indices at which `sep` occurs in `cs` (all candidate match positions). -/
def matchIdxs (sep cs : List Char) : List Nat :=
  (List.range (cs.length + 1)).filter (fun i => sep.isPrefixOf (cs.drop i))

/-- Keep only the left-to-right non-overlapping occurrences, like `str.split`. -/
def greedyIdxs (sepLen : Nat) (idxs : List Nat) : List Nat :=
  (idxs.foldl (fun (acc : List Nat × Nat) i =>
    if acc.2 ≤ i then (acc.1 ++ [i], i + sepLen) else acc) ([], 0)).1

/-- Cut `cs` at the given (non-overlapping) occurrence positions of a
separator of length `sepLen`. -/
def splitAtBoundaries (sepLen : Nat) (cs : List Char) (idxs : List Nat) : List (List Char) :=
  let r := idxs.foldl
    (fun (acc : List (List Char) × Nat) i =>
      (acc.1 ++ [(cs.drop acc.2).take (i - acc.2)], i + sepLen)) ([], 0)
  r.1 ++ [cs.drop r.2]

/-- Python `str.split(sep)` on character lists (for nonempty `sep`). -/
def splitOnL (sep cs : List Char) : List (List Char) :=
  if sep = [] then [cs]
  else splitAtBoundaries sep.length cs (greedyIdxs sep.length (matchIdxs sep cs))

/-- Python `s.split(sep)`. -/
def pySplit (s sep : String) : List String :=
  (splitOnL sep.data s.data).map String.mk

/-- Python `s.replace(old, new)` (non-overlapping, left to right). -/
def strReplace (s old new : String) : String :=
  joinWith new (pySplit s old)

/-- ASCII lowercase of one character (model of `str.lower` on path text). -/
def lowerChar (c : Char) : Char :=
  if 'A' ≤ c ∧ c ≤ 'Z' then Char.ofNat (c.toNat + 32) else c

/-- Python `s.lower()` (ASCII model). -/
def strLower (s : String) : String :=
  String.mk (s.data.map lowerChar)

/-- Python `s.strip()`: remove leading and trailing whitespace. -/
def strTrim (s : String) : String :=
  String.mk ((s.data.dropWhile Char.isWhitespace).reverse.dropWhile Char.isWhitespace |>.reverse)

/-- Right-align the decimal form of `n` in a field of `width` spaces, the
Python format `f"{n:{width}d}"`. -/
def padNum (width : Nat) (n : Nat) : String :=
  let s := toString n
  String.mk (List.replicate (width - s.length) ' ') ++ s

/-- Group a reversed digit list in blocks of three (helper for `commaFmt`). -/
def chunk3 : List Char → List (List Char)
  | a :: b :: c :: rest =>
    match rest with
    | [] => [[a, b, c]]
    | _ => [a, b, c] :: chunk3 rest
  | [] => []
  | rest => [rest]

/-- Python `f"{n:,}"`: decimal with thousands separators. -/
def commaFmt (n : Nat) : String :=
  String.mk ((joinWith "," ((chunk3 (toString n).data.reverse).map String.mk)).data.reverse)

/-- A `pathlib` pure path: the absolute anchor and the parsed components
(`PurePosixPath.parts` without the leading `/`). -/
structure PyPath where
  absolute : Bool
  components : List String
deriving DecidableEq, Repr

/-- Parsing `pathlib.Path(s)`: absolute iff the string starts with `/`; components are
the slash-separated pieces with empty pieces and `.` collapsed. -/
def parsePath (s : String) : PyPath :=
  { absolute := strStartsWith s "/"
    components := ((splitOnL ['/'] s.data).map String.mk).filter
      (fun c => !(c == "" || c == ".")) }

/-- Printing `str(path)` for the paths this module builds (absolute paths and joins). -/
def pathToString (p : PyPath) : String :=
  (if p.absolute then "/" else "") ++ joinWith "/" p.components

/-- Joining `path / name` for a plain file or directory name. -/
def pathJoinName (p : PyPath) (name : String) : PyPath :=
  ⟨p.absolute, p.components ++ [name]⟩

/-- Joining `path / other` for a parsed right operand (an absolute right side wins). -/
def pathJoin (p q : PyPath) : PyPath :=
  if q.absolute then q else ⟨p.absolute, p.components ++ q.components⟩

/-- Python `p.relative_to(other)`: succeeds iff `other`'s components are a prefix of
`p`'s (with matching anchors), returning the relative remainder. -/
def relativeTo (p other : PyPath) : Option PyPath :=
  if p.absolute = other.absolute ∧ other.components <+: p.components then
    some ⟨false, p.components.drop other.components.length⟩
  else none

/-- Python `Path.suffix` of a file name: the final `"."`-extension, empty when
the only dot is leading or trailing or there is none. -/
def pySuffix (name : String) : String :=
  let cs := name.data
  match cs.reverse.findIdx? (fun c => c = '.') with
  | none => ""
  | some j =>
    let i := cs.length - 1 - j
    if 0 < i ∧ j ≠ 0 then String.mk (cs.drop i) else ""

/-- Modelled from the spec: the process-wide configuration surface
(`security_config`, `file_types`, `token_utils` are collaborators outside the
analyzed source): sandbox root, optional workspace-mount host path, container
mount path and its on-disk existence, home-directory override and fallback,
directory-exclusion and MCP-signature sets, default extension filter, and the
default context window for the assembler. -/
structure Env where
  WORKSPACE_ROOT : Option String
  CONTAINER_WORKSPACE : PyPath
  containerExists : Bool
  SECURITY_ROOT : PyPath
  USER_HOME : Option String
  home : PyPath
  EXCLUDED_DIRS : List String
  MCP_SIGNATURE_FILES : List String
  CODE_EXTENSIONS : List String
  DEFAULT_CONTEXT_WINDOW : Int

/-- The filesystem as a record of pure observation functions: `resolve` is
`Path.resolve` (symlinks, `.`/`..`; always yields an absolute path), `realpath`
is `os.path.realpath` on a string, and the rest are the existence / kind /
size / text-content / directory-listing queries the module makes. -/
structure FS where
  resolve : PyPath → PyPath
  realpath : String → PyPath
  exists_ : PyPath → Bool
  isFile : PyPath → Bool
  isDir : PyPath → Bool
  size : PyPath → Nat
  content : PyPath → String
  listDir : PyPath → List String × List String
  resolve_abs : ∀ p, (resolve p).absolute = true
  realpath_abs : ∀ s, (realpath s).absolute = true

/-- The `not WORKSPACE_ROOT or not WORKSPACE_ROOT.strip()` truthiness test. -/
def workspaceConfigured (env : Env) : Bool :=
  match env.WORKSPACE_ROOT with
  | none => false
  | some w => !(w == "") && !(strTrim w == "")

/-- Model of `translate_path_for_environment`: host-to-container path translation.
No-op outside the configured Docker environment or for already-translated
container paths; otherwise the path is re-rooted under the container mount,
and a path outside the mounted workspace becomes the
`/inaccessible/outside/mounted/volume` sentinel. -/
def translate_path_for_environment (env : Env) (fs : FS) (path_str : String) : String :=
  if !(workspaceConfigured env) || !env.containerExists then path_str
  else if strStartsWith path_str (pathToString env.CONTAINER_WORKSPACE ++ "/")
      || path_str == pathToString env.CONTAINER_WORKSPACE then path_str
  else
    let real_workspace_root := fs.realpath (env.WORKSPACE_ROOT.getD "")
    let real_host_path := fs.resolve (parsePath path_str)
    match relativeTo real_host_path real_workspace_root with
    | some relative_path => pathToString (pathJoin env.CONTAINER_WORKSPACE relative_path)
    | none => "/inaccessible/outside/mounted/volume" ++ path_str

/-- The two exception kinds `resolve_and_validate_path` raises. -/
inductive PyErr where
  | valueError (msg : String)
  | permissionError (msg : String)
deriving DecidableEq, Repr

/-- Model of `resolve_and_validate_path`: translate, require an absolute path, resolve,
and require the resolved path to lie within `SECURITY_ROOT`. -/
def resolve_and_validate_path (env : Env) (fs : FS) (path_str : String) : Except PyErr PyPath :=
  let translated_path_str := translate_path_for_environment env fs path_str
  let user_path := parsePath translated_path_str
  if !user_path.absolute then
    .error (.valueError
      ("Relative paths are not supported. Please provide an absolute path.\nReceived: " ++ path_str))
  else
    let resolved_path := fs.resolve user_path
    match relativeTo resolved_path env.SECURITY_ROOT with
    | some _ => .ok resolved_path
    | none => .error (.permissionError
        ("Path outside workspace: " ++ path_str ++ "\nWorkspace: "
          ++ pathToString env.SECURITY_ROOT ++ "\nResolved path: " ++ pathToString resolved_path))

/-- Model of `is_mcp_directory`: a directory is the MCP server's own directory when at
least 3 of the signature files exist directly inside it. -/
def is_mcp_directory (env : Env) (fs : FS) (path : PyPath) : Bool :=
  fs.isDir path &&
    3 ≤ (env.MCP_SIGNATURE_FILES.countP (fun sig => fs.exists_ (pathJoinName path sig)))

/-- Model of `get_user_home_directory`: explicit `USER_HOME` override, else the
workspace root when running inside the container, else the system home. -/
def get_user_home_directory (env : Env) (fs : FS) : Option PyPath :=
  match env.USER_HOME with
  | some user_home =>
    if user_home ≠ "" then some (fs.resolve (parsePath user_home))
    else if env.containerExists then
      match env.WORKSPACE_ROOT with
      | some w => if w ≠ "" then some (fs.resolve (parsePath w)) else some env.home
      | none => some env.home
    else some env.home
  | none =>
    if env.containerExists then
      match env.WORKSPACE_ROOT with
      | some w => if w ≠ "" then some (fs.resolve (parsePath w)) else some env.home
      | none => some env.home
    else some env.home

/-- One platform pattern test of `is_home_directory_root`: the lower-cased
path contains the marker and nothing but the user name follows it. -/
def homePatternHit (path_str : String) (pat : String) : Bool :=
  match pySplit path_str pat with
  | _ :: after_pattern :: _ =>
    !(after_pattern.contains '/') && !(after_pattern.contains '\\')
  | _ => false

/-- The fixed `home_patterns` list of `is_home_directory_root`. -/
def home_patterns : List String :=
  ["/users/", "/home/", "c:\\users\\", "c:/users/"]

/-- Model of `is_home_directory_root`: exact match against the resolved home directory,
or the lower-cased marker-segment heuristic. -/
def is_home_directory_root (env : Env) (fs : FS) (path : PyPath) : Bool :=
  match get_user_home_directory env fs with
  | none => false
  | some user_home =>
    let resolved_path := fs.resolve path
    let resolved_home := fs.resolve user_home
    if resolved_path = resolved_home then true
    else
      let path_str := strLower (pathToString resolved_path)
      home_patterns.any (fun pat => homePatternHit path_str pat)

/-- The running `(expanded_files, seen)` pair of `expand_paths`. -/
structure ExpandState where
  expanded_files : List String
  seen : List String
deriving Repr

/-- Append a candidate path string unless the `seen` set already has it. -/
def addIfNew (st : ExpandState) (full_path : String) : ExpandState :=
  if full_path ∈ st.seen then st
  else ⟨st.expanded_files ++ [full_path], st.seen ++ [full_path]⟩

/-- The body of the `os.walk` loop in `expand_paths`: at each directory,
hidden / denylisted / MCP subdirectories are pruned before descending, hidden
files are skipped, and remaining files are appended (deduplicated) when the
extension filter admits them.  `fuel` bounds the recursion depth. -/
def walkLoop (env : Env) (fs : FS) (exts : List String) :
    Nat → PyPath → ExpandState → ExpandState
  | 0, _, st => st
  | fuel + 1, root, st =>
    let dirsFiles := fs.listDir root
    let keptDirs := dirsFiles.1.filter (fun d =>
      !(strStartsWith d ".") && !(d ∈ env.EXCLUDED_DIRS)
        && !(is_mcp_directory env fs (pathJoinName root d)))
    let st1 := dirsFiles.2.foldl (fun st file =>
      if strStartsWith file "." then st
      else
        let file_path := pathJoinName root file
        if exts.isEmpty || strLower (pySuffix file) ∈ exts then
          addIfNew st (pathToString file_path)
        else st) st
    keptDirs.foldl (fun st d => walkLoop env fs exts fuel (pathJoinName root d) st) st1

/-- Lexicographic comparison of character lists by code point (the order
Python uses to compare strings). -/
def lexLe : List Char → List Char → Bool
  | [], _ => true
  | _ :: _, [] => false
  | a :: as, b :: bs =>
    if a.toNat < b.toNat then true
    else if b.toNat < a.toNat then false
    else lexLe as bs

/-- Python `s <= t` on strings. -/
def strLe (a b : String) : Bool :=
  lexLe a.data b.data

/-- Lexicographic sort (`list.sort()` on strings). -/
def sortStrings (l : List String) : List String :=
  List.insertionSort (fun a b => strLe a b = true) l

/-- Processing of one input path of `expand_paths`: validate, drop
non-existent entries, apply the three directory-level guards, then add a file
directly or walk a directory. -/
def expandOne (env : Env) (fs : FS) (exts : List String) (fuel : Nat)
    (st : ExpandState) (path : String) : ExpandState :=
  match resolve_and_validate_path env fs path with
  | .error _ => st
  | .ok path_obj =>
    if !(fs.exists_ path_obj) then st
    else if fs.isDir path_obj
        && (fs.resolve path_obj = fs.resolve env.SECURITY_ROOT
          || is_home_directory_root env fs path_obj
          || is_mcp_directory env fs path_obj) then st
    else if fs.isFile path_obj then addIfNew st (pathToString path_obj)
    else if fs.isDir path_obj then walkLoop env fs exts fuel path_obj st
    else st

/-- Model of `expand_paths`: validate and expand every input path into individual
files, deduplicated by a seen-set and finally sorted. -/
def expand_paths (env : Env) (fs : FS) (fuel : Nat) (paths : List String)
    (extensions : Option (List String)) : List String :=
  let exts := extensions.getD env.CODE_EXTENSIONS
  sortStrings (paths.foldl (expandOne env fs exts fuel) ⟨[], []⟩).expanded_files

/-- The invariant of the `(expanded_files, seen)` pair of `expand_paths`:
no duplicates, the seen-set tracks exactly the emitted files, and every
emitted path string is absolute. -/
def GoodState (st : ExpandState) : Prop :=
  st.expanded_files.Nodup
    ∧ (∀ x, x ∈ st.expanded_files ↔ x ∈ st.seen)
    ∧ (∀ x ∈ st.expanded_files, strStartsWith x "/" = true)

/-- Model of `should_add_line_numbers`: the explicit preference, defaulting to off. -/
def should_add_line_numbers (include_line_numbers : Option Bool) : Bool :=
  include_line_numbers.getD false

/-- Model of `_normalize_line_endings`: CRLF and lone CR become LF. -/
def _normalize_line_endings (content : String) : String :=
  strReplace (strReplace content "\r\n" "\n") "\r" "\n"

/-- The numbered line list built by `_add_line_numbers` before joining. -/
def numberedLines (content : String) : List String :=
  let normalized_content := _normalize_line_endings content
  let lines := pySplit normalized_content "\n"
  let width := max (toString lines.length).length 4
  lines.enum.map (fun il => padNum width (il.1 + 1) ++ "│ " ++ il.2)

/-- Model of `_add_line_numbers`: prefix each line with its right-aligned number. -/
def _add_line_numbers (content : String) : String :=
  joinWith "\n" (numberedLines content)

/-- The `--- ERROR ACCESSING FILE ---` placeholder of `read_file_content`. -/
def errorAccessBlock (file_path error_msg : String) : String :=
  "\n--- ERROR ACCESSING FILE: " ++ file_path ++ " ---\nError: " ++ error_msg
    ++ "\n--- END FILE ---\n"

/-- The `--- FILE NOT FOUND ---` placeholder of `read_file_content`. -/
def fileNotFoundBlock (file_path : String) : String :=
  "\n--- FILE NOT FOUND: " ++ file_path ++ " ---\nError: File does not exist\n--- END FILE ---\n"

/-- The `--- NOT A FILE ---` placeholder of `read_file_content`. -/
def notAFileBlock (file_path : String) : String :=
  "\n--- NOT A FILE: " ++ file_path ++ " ---\nError: Path is not a file\n--- END FILE ---\n"

/-- The `--- FILE TOO LARGE ---` placeholder of `read_file_content`. -/
def fileTooLargeBlock (file_path : String) (file_size max_size : Nat) : String :=
  "\n--- FILE TOO LARGE: " ++ file_path ++ " ---\nFile size: " ++ commaFmt file_size
    ++ " bytes (max: " ++ commaFmt max_size ++ ")\n--- END FILE ---\n"

/-- The begin/end framing of a successfully read file. -/
def beginEndWrap (file_path file_content : String) : String :=
  "\n--- BEGIN FILE: " ++ file_path ++ " ---\n" ++ file_content
    ++ "\n--- END FILE: " ++ file_path ++ " ---\n"

/-- The Docker-specific replacement message used for validation failures when
running inside the configured container. -/
def dockerErrorMsg (env : Env) : String :=
  "File is outside the Docker mounted directory. When running in Docker, only files "
    ++ "within the mounted workspace are accessible. Current mounted directory: "
    ++ env.WORKSPACE_ROOT.getD "" ++ ". To access files in a different directory, "
    ++ "please run Claude from that directory."

/-- Message `str(e)` of the two validation exceptions. -/
def pyErrMsg : PyErr → String
  | .valueError m => m
  | .permissionError m => m

/-- The `if WORKSPACE_ROOT` truthiness test of `read_file_content`. -/
def workspaceRootTruthy (env : Env) : Bool :=
  match env.WORKSPACE_ROOT with
  | none => false
  | some w => !(w == "")

/-- Model of `read_file_content`: read one file and always return a formatted block and
its estimated token count, converting every failure into a labeled placeholder
(validation failure, missing file, non-file target, oversize). -/
def read_file_content (env : Env) (fs : FS) (est : String → Nat) (file_path : String)
    (max_size : Nat) (include_line_numbers : Option Bool) : String × Nat :=
  match resolve_and_validate_path env fs file_path with
  | .error e =>
    let error_msg :=
      if workspaceRootTruthy env && env.containerExists then dockerErrorMsg env
      else pyErrMsg e
    let content := errorAccessBlock file_path error_msg
    (content, est content)
  | .ok path =>
    if !(fs.exists_ path) then
      let content := fileNotFoundBlock file_path
      (content, est content)
    else if !(fs.isFile path) then
      let content := notAFileBlock file_path
      (content, est content)
    else if max_size < fs.size path then
      let content := fileTooLargeBlock file_path (fs.size path) max_size
      (content, est content)
    else
      let add_ln := should_add_line_numbers include_line_numbers
      let raw := fs.content path
      let file_content :=
        if add_ln then _add_line_numbers raw else _normalize_line_endings raw
      let formatted := beginEndWrap file_path file_content
      (formatted, est formatted)

/-- The mutable state of the file loop of `read_files`: accepted file blocks,
cumulative token count, skipped files, and the files actually read. -/
structure LoopState where
  parts : List String
  total : Nat
  skipped : List String
  reads : List String
deriving Repr

/-- The file loop of `read_files`: break (skipping everything left) once the
cumulative count meets the available budget, otherwise read the file, accept
it when it fits, and skip just that file when it does not. -/
def fileLoop (env : Env) (fs : FS) (est : String → Nat) (ln : Bool) (avail : Int) :
    List String → LoopState → LoopState
  | [], st => st
  | f :: rest, st =>
    if avail ≤ (st.total : Int) then
      { st with skipped := st.skipped ++ (f :: rest) }
    else
      let ct := read_file_content env fs est f 1000000 (some ln)
      if (st.total : Int) + ct.2 ≤ avail then
        fileLoop env fs est ln avail rest
          { parts := st.parts ++ [ct.1], total := st.total + ct.2
            skipped := st.skipped, reads := st.reads ++ [f] }
      else
        fileLoop env fs est ln avail rest
          { st with skipped := st.skipped ++ [f], reads := st.reads ++ [f] }

/-- The `--- BEGIN DIRECT CODE ---` framing of inline code. -/
def directCodeBlock (code : String) : String :=
  "\n--- BEGIN DIRECT CODE ---\n" ++ code ++ "\n--- END DIRECT CODE ---\n"

/-- The `--- NO FILES FOUND ---` block of `read_files`. -/
def noFilesFoundBlock (file_paths : List String) : String :=
  "\n--- NO FILES FOUND ---\nProvided paths: " ++ joinWith ", " file_paths
    ++ "\n--- END ---\n"

/-- The `--- SKIPPED FILES (TOKEN LIMIT) ---` summary block of `read_files`:
count, first ten paths, and an `... and N more` note when truncated. -/
def skipNoteFor (files_skipped : List String) : String :=
  "\n\n--- SKIPPED FILES (TOKEN LIMIT) ---\n"
    ++ "Total skipped: " ++ toString files_skipped.length ++ "\n"
    ++ joinWith "" ((files_skipped.take 10).map (fun fp => "  - " ++ fp ++ "\n"))
    ++ (if 10 < files_skipped.length then
          "  ... and " ++ toString (files_skipped.length - 10) ++ " more\n"
        else "")
    ++ "--- END SKIPPED FILES ---\n"

/-- The observable outcome of one `read_files` call: the accepted inline-code
block, the accepted file blocks, the unbudgeted note blocks, the final token
count, the skip list, the files read, and the expanded file list. -/
structure RFResult where
  code_parts : List String
  file_parts : List String
  note_parts : List String
  total_tokens : Nat
  files_skipped : List String
  reads : List String
  all_files : List String
deriving Repr

/-- All `content_parts` in the order the Python code appends them. -/
def RFResult.content_parts (r : RFResult) : List String :=
  r.code_parts ++ r.file_parts ++ r.note_parts

/-- The string `read_files` returns. -/
def RFResult.result (r : RFResult) : String :=
  if r.content_parts = [] then "" else joinWith "\n\n" r.content_parts

/-- The inline-code step of `read_files`: when `code` is truthy, format it
and include it only if it fits whole in the available budget, deducting its
tokens.  Returns `(content_parts, total_tokens, available_tokens)`. -/
def codeStepFn (est : String → Nat) (code : Option String) (available_tokens : Int) :
    List String × Nat × Int :=
  match code with
  | some c =>
    if c ≠ "" then
      let formatted_code := directCodeBlock c
      let code_tokens := est formatted_code
      if (code_tokens : Int) ≤ available_tokens then
        ([formatted_code], code_tokens, available_tokens - code_tokens)
      else ([], 0, available_tokens)
    else ([], 0, available_tokens)
  | none => ([], 0, available_tokens)

/-- Model of `read_files`: include the inline code when it fits whole, expand the
paths, run the budgeted file loop (or emit the no-files block), and append
the skip summary.  Returns all components of the outcome. -/
def read_files_full (env : Env) (fs : FS) (est : String → Nat) (fuel : Nat)
    (file_paths : List String) (code : Option String) (max_tokens : Option Int)
    (reserve_tokens : Int) (include_line_numbers : Bool) : RFResult :=
  let maxT := max_tokens.getD env.DEFAULT_CONTEXT_WINDOW
  let available_tokens : Int := maxT - reserve_tokens
  let codeStep := codeStepFn est code available_tokens
  if file_paths ≠ [] then
    let all_files := expand_paths env fs fuel file_paths none
    if all_files = [] then
      { code_parts := codeStep.1, file_parts := [],
        note_parts := [noFilesFoundBlock file_paths],
        total_tokens := codeStep.2.1, files_skipped := [], reads := [],
        all_files := all_files }
    else
      let st := fileLoop env fs est include_line_numbers codeStep.2.2 all_files
        ⟨[], codeStep.2.1, [], []⟩
      { code_parts := codeStep.1, file_parts := st.parts,
        note_parts := if st.skipped ≠ [] then [skipNoteFor st.skipped] else [],
        total_tokens := st.total, files_skipped := st.skipped, reads := st.reads,
        all_files := all_files }
  else
    { code_parts := codeStep.1, file_parts := [], note_parts := [],
      total_tokens := codeStep.2.1, files_skipped := [], reads := [],
      all_files := [] }

/-- Model of `read_files` as the Python function returns it: just the joined string. -/
def read_files (env : Env) (fs : FS) (est : String → Nat) (fuel : Nat)
    (file_paths : List String) (code : Option String) (max_tokens : Option Int)
    (reserve_tokens : Int) (include_line_numbers : Bool) : String :=
  (read_files_full env fs est fuel file_paths code max_tokens reserve_tokens
    include_line_numbers).result

/-- A concrete non-Docker configuration used by the concrete instances. -/
def envDemo : Env :=
  { WORKSPACE_ROOT := none, CONTAINER_WORKSPACE := ⟨true, ["workspace"]⟩,
    containerExists := false, SECURITY_ROOT := ⟨true, ["proj"]⟩,
    USER_HOME := none, home := ⟨true, ["root"]⟩,
    EXCLUDED_DIRS := ["__pycache__"], MCP_SIGNATURE_FILES := ["server.py"],
    CODE_EXTENSIONS := [".py"], DEFAULT_CONTEXT_WINDOW := 1000 }

/-- A concrete filesystem: `/proj/sub` is a directory holding `a.py`, and
`/proj/b.py` is a 5-byte file; no symlinks, so `resolve` is the identity on
components. -/
def fsDemo : FS :=
  { resolve := fun p => ⟨true, p.components⟩
    realpath := fun s => ⟨true, (parsePath s).components⟩
    exists_ := fun p => decide
      (p.components ∈ [["proj"], ["proj", "sub"], ["proj", "sub", "a.py"], ["proj", "b.py"],
        ["proj", ".env"]])
    isFile := fun p => decide
      (p.components ∈ [["proj", "sub", "a.py"], ["proj", "b.py"], ["proj", ".env"]])
    isDir := fun p => decide (p.components ∈ [["proj"], ["proj", "sub"]])
    size := fun _ => 5
    content := fun _ => "hello"
    listDir := fun p =>
      if p.components = ["proj", "sub"] then (([], ["a.py"]) : List String × List String)
      else ([], [])
    resolve_abs := fun _ => rfl
    realpath_abs := fun _ => rfl }

/-- A concrete Docker configuration (`/host` mounted at `/workspace`). -/
def envDocker : Env :=
  { WORKSPACE_ROOT := some "/host", CONTAINER_WORKSPACE := ⟨true, ["workspace"]⟩,
    containerExists := true, SECURITY_ROOT := ⟨true, ["workspace"]⟩,
    USER_HOME := none, home := ⟨true, ["root"]⟩,
    EXCLUDED_DIRS := [], MCP_SIGNATURE_FILES := [],
    CODE_EXTENSIONS := [".py"], DEFAULT_CONTEXT_WINDOW := 1000 }

/-- A filesystem with no symlinks and no entries: `resolve` and `realpath`
just normalize, every existence check fails. -/
def fsEmpty : FS :=
  { resolve := fun p => ⟨true, p.components⟩
    realpath := fun s => ⟨true, (parsePath s).components⟩
    exists_ := fun _ => false, isFile := fun _ => false, isDir := fun _ => false
    size := fun _ => 0, content := fun _ => ""
    listDir := fun _ => ([], [])
    resolve_abs := fun _ => rfl, realpath_abs := fun _ => rfl }

instance exceptDecEq {ε α : Type} [DecidableEq ε] [DecidableEq α] :
    DecidableEq (Except ε α) := fun a b =>
  match a, b with
  | .error x, .error y =>
    if h : x = y then .isTrue (congrArg Except.error h)
    else .isFalse (fun hc => h (Except.error.inj hc))
  | .ok x, .ok y =>
    if h : x = y then .isTrue (congrArg Except.ok h)
    else .isFalse (fun hc => h (Except.ok.inj hc))
  | .error _, .ok _ => .isFalse Except.noConfusion
  | .ok _, .error _ => .isFalse Except.noConfusion

example :
    translate_path_for_environment envDocker fsEmpty "/host/x" = "/workspace/x" := by decide
example :
    translate_path_for_environment envDocker fsEmpty "/outside"
      = "/inaccessible/outside/mounted/volume/outside" := by decide
example :
    translate_path_for_environment envDocker fsEmpty
        "/inaccessible/outside/mounted/volume/outside"
      = "/inaccessible/outside/mounted/volume/inaccessible/outside/mounted/volume/outside" := by
  decide
example :
    resolve_and_validate_path envDemo fsDemo "/proj/sub/a.py" = .ok ⟨true, ["proj", "sub", "a.py"]⟩ := by
  decide
example :
    expand_paths envDemo fsDemo 3 ["/proj/sub", "/proj/sub/a.py"] none
      = ["/proj/sub/a.py"] := by decide
example :
    (read_file_content envDemo fsDemo (fun s => s.length) "/proj/b.py" 1000000 none).1
      = beginEndWrap "/proj/b.py" "hello" := by decide
example :
    (read_file_content envDemo fsDemo (fun s => s.length) "/proj/b.py" 3 none).1
      = fileTooLargeBlock "/proj/b.py" 5 3 := by decide

example : pySplit "/home/u" "/home/" = ["", "u"] := by decide
example : pySplit "a/b//c/./d" "/" = ["a", "b", "", "c", ".", "d"] := by decide
example : parsePath "/proj/a" = ⟨true, ["proj", "a"]⟩ := by decide
example : parsePath "rel/x" = ⟨false, ["rel", "x"]⟩ := by decide
example : parsePath "/a//b/./c" = ⟨true, ["a", "b", "c"]⟩ := by decide
example : commaFmt 1234567 = "1,234,567" := by decide
example : commaFmt 1000000 = "1,000,000" := by decide
example : pySuffix "file.PY" = ".PY" := by decide
example : pySuffix ".gitignore" = "" := by decide
example : pySuffix "file." = "" := by decide
example : padNum 4 1 = "   1" := by decide
example : strReplace "a\r\nb\rc" "\r\n" "\n" = "a\nb\rc" := by decide
example : strLower "/Users/Fahad" = "/users/fahad" := by decide

example :
    _add_line_numbers "a\nb\nc" = "   1│ a\n   2│ b\n   3│ c" := by decide

theorem lexLe_total (as bs : List Char) : lexLe as bs = true ∨ lexLe bs as = true := by
  induction as generalizing bs with
  | nil => left; rfl
  | cons a as ih =>
    cases bs with
    | nil => right; rfl
    | cons b bs =>
      simp only [lexLe]
      rcases Nat.lt_trichotomy a.toNat b.toNat with h | h | h
      · left; simp [h]
      · have h1 : ¬ a.toNat < b.toNat := by omega
        have h2 : ¬ b.toNat < a.toNat := by omega
        simpa [h1, h2] using ih bs
      · right; simp [h]

theorem lexLe_trans (as bs cs : List Char) (h1 : lexLe as bs = true)
    (h2 : lexLe bs cs = true) : lexLe as cs = true := by
  induction as generalizing bs cs with
  | nil => rfl
  | cons a as ih =>
    cases bs with
    | nil => simp [lexLe] at h1
    | cons b bs =>
      cases cs with
      | nil => simp [lexLe] at h2
      | cons c cs =>
        simp only [lexLe] at h1 h2 ⊢
        split_ifs at h1 h2 ⊢ <;> first
          | rfl
          | omega
          | (exact ih bs cs h1 h2)

instance strLeTotal : IsTotal String (fun a b => strLe a b = true) :=
  ⟨fun a b => lexLe_total a.data b.data⟩

instance strLeTrans : IsTrans String (fun a b => strLe a b = true) :=
  ⟨fun a b c => lexLe_trans a.data b.data c.data⟩

theorem sortStrings_sorted (l : List String) :
    List.Sorted (fun a b => strLe a b = true) (sortStrings l) :=
  List.sorted_insertionSort _ l

theorem sortStrings_perm (l : List String) : List.Perm (sortStrings l) l :=
  List.perm_insertionSort _ l

/-- C1: for every input string `p`, `resolve_and_validate_path p` either
raises an error or returns an absolute, symlink-resolved path that lies
within the sandbox root (`SECURITY_ROOT`); whatever the filesystem's symlink
structure, `..` segments, or the path translation do, a returned path always
passes the inclusive containment test against the root. -/
theorem C1_sandbox_containment (env : Env) (fs : FS) (p : String) (q : PyPath)
    (h : resolve_and_validate_path env fs p = .ok q) :
    q.absolute = true ∧ (relativeTo q env.SECURITY_ROOT).isSome = true := by
  simp only [resolve_and_validate_path] at h
  split at h
  · exact absurd h (by simp)
  · split at h
    · rename_i heq
      injection h with h'
      subst h'
      exact ⟨fs.resolve_abs _, by rw [heq]; rfl⟩
    · exact absurd h (by simp)

theorem C1_sandbox_containment_witness :
    (⟨true, ["proj", "sub", "a.py"]⟩ : PyPath).absolute = true ∧
      (relativeTo ⟨true, ["proj", "sub", "a.py"]⟩ envDemo.SECURITY_ROOT).isSome = true :=
  C1_sandbox_containment envDemo fsDemo "/proj/sub/a.py" _ (by decide)

/-- C9: a path that canonicalizes to exactly the sandbox root itself is
accepted and returned (containment is inclusive: equality with
`SECURITY_ROOT` counts as inside; no `PermissionError` for it). -/
theorem C9_root_itself_accepted (env : Env) (fs : FS) (p : String)
    (h1 : (parsePath (translate_path_for_environment env fs p)).absolute = true)
    (h2 : fs.resolve (parsePath (translate_path_for_environment env fs p)) = env.SECURITY_ROOT) :
    resolve_and_validate_path env fs p = .ok env.SECURITY_ROOT := by
  have hrt : relativeTo env.SECURITY_ROOT env.SECURITY_ROOT =
      some ⟨false, env.SECURITY_ROOT.components.drop env.SECURITY_ROOT.components.length⟩ := by
    unfold relativeTo
    rw [if_pos ⟨rfl, List.prefix_refl _⟩]
  simp only [resolve_and_validate_path, h1, h2, Bool.not_true, if_neg, hrt]
  simp

theorem C9_root_itself_accepted_witness :
    resolve_and_validate_path envDemo fsDemo "/proj" = .ok envDemo.SECURITY_ROOT :=
  C9_root_itself_accepted envDemo fsDemo "/proj" (by decide) (by decide)

theorem joinWith_cons (sep x : String) (l : List String) (h : l ≠ []) :
    joinWith sep (x :: l) = x ++ sep ++ joinWith sep l := by
  cases l with
  | nil => exact absurd rfl h
  | cons y ys => rfl

theorem joinWith_append (sep : String) (xs ys : List String) (hx : xs ≠ []) (hy : ys ≠ []) :
    joinWith sep (xs ++ ys) = joinWith sep xs ++ sep ++ joinWith sep ys := by
  induction xs with
  | nil => exact absurd rfl hx
  | cons x xs ih =>
    cases xs with
    | nil => simpa using joinWith_cons sep x ys hy
    | cons x' xs' =>
      rw [List.cons_append, joinWith_cons sep x (x' :: xs' ++ ys) (by simp),
        joinWith_cons sep x (x' :: xs') (by simp), ih (by simp)]
      simp [String.append_assoc]

theorem strStartsWith_append (a b : String) : strStartsWith (a ++ b) a = true := by
  unfold strStartsWith
  rw [String.data_append, List.isPrefixOf_iff_prefix]
  exact List.prefix_append _ _

theorem relativeTo_eq_some {a b r : PyPath} (h : relativeTo a b = some r) :
    r = ⟨false, a.components.drop b.components.length⟩ := by
  unfold relativeTo at h
  split at h
  · injection h with h'; exact h'.symm
  · cases h

theorem translate_id_of_not_configured (env : Env) (fs : FS) (s : String)
    (hc : (!(workspaceConfigured env) || !env.containerExists) = true) :
    translate_path_for_environment env fs s = s := by
  unfold translate_path_for_environment
  rw [if_pos hc]

theorem translate_id_of_container_path (env : Env) (fs : FS) (s : String)
    (h2 : (strStartsWith s (pathToString env.CONTAINER_WORKSPACE ++ "/")
      || s == pathToString env.CONTAINER_WORKSPACE) = true) :
    translate_path_for_environment env fs s = s := by
  unfold translate_path_for_environment
  by_cases hc : (!(workspaceConfigured env) || !env.containerExists) = true
  · rw [if_pos hc]
  · rw [if_neg hc, if_pos h2]

theorem translate_success (env : Env) (fs : FS) (s : String) (r : PyPath)
    (hc : (!(workspaceConfigured env) || !env.containerExists) = false)
    (h2 : (strStartsWith s (pathToString env.CONTAINER_WORKSPACE ++ "/")
      || s == pathToString env.CONTAINER_WORKSPACE) = false)
    (hr : relativeTo (fs.resolve (parsePath s)) (fs.realpath (env.WORKSPACE_ROOT.getD ""))
      = some r) :
    translate_path_for_environment env fs s
      = pathToString (pathJoin env.CONTAINER_WORKSPACE r) := by
  simp only [translate_path_for_environment, hc, h2, hr, Bool.false_eq_true, if_false]

/-- C4 counterexample: with the container mount configured (`/host` mounted,
container workspace present), translation is not idempotent on a path outside
the host root — the first call produces the
`/inaccessible/outside/mounted/volume` sentinel and the second call prefixes
the sentinel again. -/
theorem C4_translate_idempotence_cex :
    ¬ (translate_path_for_environment envDocker fsEmpty
          (translate_path_for_environment envDocker fsEmpty "/outside")
        = translate_path_for_environment envDocker fsEmpty "/outside") := by
  decide

/-- C4 (amended): when the container mount is configured,
`translate_path_for_environment` is idempotent on every input that is already
a container path (begins with the container-mount path, or equals it) and on
every input whose resolved path lies under the host workspace root (so that
translation succeeds); an input outside the host root yields the
`/inaccessible/outside/mounted/volume` sentinel, on which a second
translation prefixes the sentinel again, so idempotence fails there. -/
theorem C4_translate_idempotent_amended (env : Env) (fs : FS) (p : String)
    (hcw : env.CONTAINER_WORKSPACE.components ≠ [])
    (hcase : strStartsWith p (pathToString env.CONTAINER_WORKSPACE ++ "/") = true
      ∨ p = pathToString env.CONTAINER_WORKSPACE
      ∨ (relativeTo (fs.resolve (parsePath p))
          (fs.realpath (env.WORKSPACE_ROOT.getD ""))).isSome = true) :
    translate_path_for_environment env fs (translate_path_for_environment env fs p)
      = translate_path_for_environment env fs p := by
  by_cases hc : (!(workspaceConfigured env) || !env.containerExists) = true
  · rw [translate_id_of_not_configured env fs p hc,
      translate_id_of_not_configured env fs p hc]
  · have hcf : (!(workspaceConfigured env) || !env.containerExists) = false :=
      Bool.not_eq_true _ ▸ Bool.of_not_eq_true hc
    by_cases h2 : (strStartsWith p (pathToString env.CONTAINER_WORKSPACE ++ "/")
        || p == pathToString env.CONTAINER_WORKSPACE) = true
    · rw [translate_id_of_container_path env fs p h2,
        translate_id_of_container_path env fs p h2]
    · have h2f : (strStartsWith p (pathToString env.CONTAINER_WORKSPACE ++ "/")
          || p == pathToString env.CONTAINER_WORKSPACE) = false := by
        exact Bool.not_eq_true _ ▸ Bool.of_not_eq_true h2
      have hrel : (relativeTo (fs.resolve (parsePath p))
          (fs.realpath (env.WORKSPACE_ROOT.getD ""))).isSome = true := by
        rcases hcase with hca | hca | hca
        · rw [hca] at h2f; simp at h2f
        · rw [hca] at h2f; simp at h2f
        · exact hca
      obtain ⟨r, hr⟩ := Option.isSome_iff_exists.mp hrel
      have hrabs : r.absolute = false := by rw [relativeTo_eq_some hr]
      rw [translate_success env fs p r hcf h2f hr]
      cases hrc : r.components with
      | nil =>
        have hjoin : pathJoin env.CONTAINER_WORKSPACE r = env.CONTAINER_WORKSPACE := by
          unfold pathJoin
          rw [hrabs, hrc]
          simp
        rw [hjoin]
        exact translate_id_of_container_path env fs _ (by simp)
      | cons c cs =>
        have hjoin : pathJoin env.CONTAINER_WORKSPACE r
            = ⟨env.CONTAINER_WORKSPACE.absolute,
                env.CONTAINER_WORKSPACE.components ++ r.components⟩ := by
          unfold pathJoin
          rw [hrabs]
          simp
        have hsplit : pathToString (pathJoin env.CONTAINER_WORKSPACE r)
            = (pathToString env.CONTAINER_WORKSPACE ++ "/") ++ joinWith "/" r.components := by
          rw [hjoin]
          unfold pathToString
          simp only
          rw [joinWith_append "/" _ _ hcw (by rw [hrc]; simp)]
          cases env.CONTAINER_WORKSPACE.absolute <;> simp [String.append_assoc]
        apply translate_id_of_container_path
        rw [hsplit]
        rw [strStartsWith_append]
        simp

theorem C4_translate_idempotent_amended_witness :
    translate_path_for_environment envDocker fsEmpty
        (translate_path_for_environment envDocker fsEmpty "/host/x")
      = translate_path_for_environment envDocker fsEmpty "/host/x" :=
  C4_translate_idempotent_amended envDocker fsEmpty "/host/x" (by decide)
    (Or.inr (Or.inr (by decide)))

/-- C3: one step of the assembler's file loop: if the cumulative count
already meets or exceeds the available budget, iteration stops and all
remaining files are marked skipped without being read; otherwise the file is
read, accepted when `used + fileTokens <= available`, and otherwise only that
file is skipped while the scan continues with the remaining files. -/
theorem C3_file_loop_step (env : Env) (fs : FS) (est : String → Nat) (ln : Bool)
    (avail : Int) (f : String) (rest : List String) (st : LoopState) :
    (avail ≤ (st.total : Int) →
      fileLoop env fs est ln avail (f :: rest) st
        = { st with skipped := st.skipped ++ (f :: rest) })
  ∧ ((st.total : Int) < avail →
      ((st.total : Int) + (read_file_content env fs est f 1000000 (some ln)).2 ≤ avail →
        fileLoop env fs est ln avail (f :: rest) st
          = fileLoop env fs est ln avail rest
              { parts := st.parts ++ [(read_file_content env fs est f 1000000 (some ln)).1]
                total := st.total + (read_file_content env fs est f 1000000 (some ln)).2
                skipped := st.skipped
                reads := st.reads ++ [f] })
      ∧ (avail < (st.total : Int) + (read_file_content env fs est f 1000000 (some ln)).2 →
        fileLoop env fs est ln avail (f :: rest) st
          = fileLoop env fs est ln avail rest
              { st with skipped := st.skipped ++ [f], reads := st.reads ++ [f] })) := by
  refine ⟨fun h => ?_, fun h => ⟨fun hfit => ?_, fun hnofit => ?_⟩⟩
  · unfold fileLoop
    rw [if_pos h]
  · simp only [fileLoop]
    rw [if_neg (not_le.mpr h), if_pos hfit]
  · simp only [fileLoop]
    rw [if_neg (not_le.mpr h), if_neg (not_le.mpr hnofit)]

theorem C3_file_loop_step_witness :
    (fileLoop envDemo fsDemo String.length false 0 ["/proj/b.py"] ⟨[], 0, [], []⟩
      = { parts := [], total := 0, skipped := ["/proj/b.py"], reads := [] })
  ∧ (fileLoop envDemo fsDemo String.length false 1000 ["/proj/b.py"] ⟨[], 0, [], []⟩
      = fileLoop envDemo fsDemo String.length false 1000 []
          { parts := [(read_file_content envDemo fsDemo String.length "/proj/b.py"
              1000000 (some false)).1]
            total := 0 + (read_file_content envDemo fsDemo String.length "/proj/b.py"
              1000000 (some false)).2
            skipped := [], reads := ["/proj/b.py"] })
  ∧ (fileLoop envDemo fsDemo String.length false 1 ["/proj/b.py"] ⟨[], 0, [], []⟩
      = fileLoop envDemo fsDemo String.length false 1 []
          { parts := [], total := 0, skipped := ["/proj/b.py"], reads := ["/proj/b.py"] }) :=
  ⟨(C3_file_loop_step envDemo fsDemo String.length false 0 "/proj/b.py" [] ⟨[], 0, [], []⟩).1
      (by decide),
    ((C3_file_loop_step envDemo fsDemo String.length false 1000 "/proj/b.py" []
        ⟨[], 0, [], []⟩).2 (by decide)).1 (by decide),
    ((C3_file_loop_step envDemo fsDemo String.length false 1 "/proj/b.py" []
        ⟨[], 0, [], []⟩).2 (by decide)).2 (by decide)⟩

theorem fileLoop_exhausted (env : Env) (fs : FS) (est : String → Nat) (ln : Bool)
    (avail : Int) (l : List String) (st : LoopState) (h : avail ≤ (st.total : Int)) :
    fileLoop env fs est ln avail l st = { st with skipped := st.skipped ++ l } := by
  cases l with
  | nil => simp [fileLoop]
  | cons f rest =>
    unfold fileLoop
    rw [if_pos h]

theorem fileLoop_total_bound (env : Env) (fs : FS) (est : String → Nat) (ln : Bool)
    (avail : Int) (l : List String) (st : LoopState) :
    (fileLoop env fs est ln avail l st).total = st.total
      ∨ ((fileLoop env fs est ln avail l st).total : Int) ≤ avail := by
  induction l generalizing st with
  | nil => left; rfl
  | cons f rest ih =>
    by_cases h : avail ≤ (st.total : Int)
    · left
      unfold fileLoop
      rw [if_pos h]
    · simp only [fileLoop]
      rw [if_neg h]
      split
      · rename_i hfit
        rcases ih { parts := st.parts ++ [(read_file_content env fs est f 1000000 (some ln)).1]
                    total := st.total + (read_file_content env fs est f 1000000 (some ln)).2
                    skipped := st.skipped, reads := st.reads ++ [f] } with h1 | h1
        · right
          rw [h1]
          exact_mod_cast hfit
        · right; exact h1
      · exact ih _

theorem directCodeBlock_ne_empty (c : String) : directCodeBlock c ≠ "" := by
  intro h
  have hd := congrArg String.data h
  rw [directCodeBlock, String.data_append, String.data_append] at hd
  simp at hd

theorem codeStepFn_cases (est : String → Nat) (code : Option String) (avail : Int) :
    ((codeStepFn est code avail).1 = [] ∧ (codeStepFn est code avail).2.1 = 0
      ∧ (codeStepFn est code avail).2.2 = avail)
  ∨ (((codeStepFn est code avail).2.1 : Int) ≤ avail
      ∧ (codeStepFn est code avail).2.2 = avail - (codeStepFn est code avail).2.1
      ∧ ∃ c, code = some c ∧ (codeStepFn est code avail).1 = [directCodeBlock c]
          ∧ (codeStepFn est code avail).2.1 = est (directCodeBlock c)) := by
  cases code with
  | none => exact Or.inl ⟨rfl, rfl, rfl⟩
  | some c =>
    by_cases hc : c ≠ ""
    · by_cases hfit : ((est (directCodeBlock c) : Int) ≤ avail)
      · simp only [codeStepFn, if_pos hc, if_pos hfit]
        exact Or.inr ⟨hfit, trivial, c, rfl, rfl, rfl⟩
      · simp only [codeStepFn, if_pos hc, if_neg hfit]
        exact Or.inl ⟨trivial, trivial, trivial⟩
    · simp only [codeStepFn, if_neg hc]
      exact Or.inl ⟨trivial, trivial, trivial⟩

theorem read_files_total_le (env : Env) (fs : FS) (est : String → Nat) (fuel : Nat)
    (file_paths : List String) (code : Option String) (max_tokens : Option Int)
    (reserve_tokens : Int) (ln : Bool)
    (h : 0 ≤ max_tokens.getD env.DEFAULT_CONTEXT_WINDOW - reserve_tokens) :
    ((read_files_full env fs est fuel file_paths code max_tokens reserve_tokens
        ln).total_tokens : Int)
      ≤ max_tokens.getD env.DEFAULT_CONTEXT_WINDOW - reserve_tokens := by
  rcases codeStepFn_cases est code (max_tokens.getD env.DEFAULT_CONTEXT_WINDOW - reserve_tokens)
    with ⟨h1, h2, h3⟩ | ⟨h1, h2, hcex⟩ <;>
  · simp only [read_files_full]
    split
    · split
      · dsimp only
        omega
      · dsimp only
        rcases fileLoop_total_bound env fs est ln _ _
            ⟨[], (codeStepFn est code (max_tokens.getD env.DEFAULT_CONTEXT_WINDOW
              - reserve_tokens)).2.1, [], []⟩ with hl | hl
        · rw [hl]; dsimp only; omega
        · omega
    · dsimp only
      omega

theorem read_files_degenerate (env : Env) (fs : FS) (est : String → Nat) (fuel : Nat)
    (file_paths : List String) (code : Option String) (max_tokens : Option Int)
    (reserve_tokens : Int) (ln : Bool)
    (h : max_tokens.getD env.DEFAULT_CONTEXT_WINDOW - reserve_tokens ≤ 0) :
    (read_files_full env fs est fuel file_paths code max_tokens reserve_tokens
        ln).total_tokens = 0
  ∧ (read_files_full env fs est fuel file_paths code max_tokens reserve_tokens
        ln).file_parts = []
  ∧ (read_files_full env fs est fuel file_paths code max_tokens reserve_tokens ln).reads = []
  ∧ ((∀ s, s ≠ "" → 0 < est s) →
      (read_files_full env fs est fuel file_paths code max_tokens reserve_tokens
        ln).code_parts = []) := by
  rcases codeStepFn_cases est code (max_tokens.getD env.DEFAULT_CONTEXT_WINDOW - reserve_tokens)
    with ⟨h1, h2, h3⟩ | ⟨h1, h2, c, hcd, hparts, htok⟩
  · have hz : (codeStepFn est code (max_tokens.getD env.DEFAULT_CONTEXT_WINDOW
        - reserve_tokens)).2.1 = 0 := h2
    have ha : (codeStepFn est code (max_tokens.getD env.DEFAULT_CONTEXT_WINDOW
        - reserve_tokens)).2.2 ≤ ((codeStepFn est code (max_tokens.getD env.DEFAULT_CONTEXT_WINDOW
        - reserve_tokens)).2.1 : Int) := by omega
    simp only [read_files_full]
    split
    · split
      · exact ⟨hz, rfl, rfl, fun _ => h1⟩
      · rw [fileLoop_exhausted env fs est ln _ _ _ ha]
        exact ⟨hz, rfl, rfl, fun _ => h1⟩
    · exact ⟨hz, rfl, rfl, fun _ => h1⟩
  · have hz : (codeStepFn est code (max_tokens.getD env.DEFAULT_CONTEXT_WINDOW
        - reserve_tokens)).2.1 = 0 := by omega
    have ha : (codeStepFn est code (max_tokens.getD env.DEFAULT_CONTEXT_WINDOW
        - reserve_tokens)).2.2 ≤ ((codeStepFn est code (max_tokens.getD env.DEFAULT_CONTEXT_WINDOW
        - reserve_tokens)).2.1 : Int) := by omega
    have hcp : (∀ s, s ≠ "" → 0 < est s) →
        (codeStepFn est code (max_tokens.getD env.DEFAULT_CONTEXT_WINDOW
          - reserve_tokens)).1 = [] := by
      intro hpos
      exact absurd (htok ▸ hz) (by have := hpos _ (directCodeBlock_ne_empty c); omega)
    simp only [read_files_full]
    split
    · split
      · exact ⟨hz, rfl, rfl, hcp⟩
      · rw [fileLoop_exhausted env fs est ln _ _ _ ha]
        exact ⟨hz, rfl, rfl, hcp⟩
    · exact ⟨hz, rfl, rfl, hcp⟩

/-- C2: the sum of the estimated tokens of all accepted blocks (the
inline-code block plus every accepted file block, i.e. the final
`total_tokens`) never exceeds `max_tokens - reserve_tokens`: every addition
is rejected rather than allowed to overshoot, and when
`reserve_tokens >= max_tokens` nothing is accepted at all (no file is read or
added, and — whenever the injected estimator gives nonempty text a positive
count — the inline code block is dropped too, leaving a zero count). -/
theorem C2_budget_hard_ceiling (env : Env) (fs : FS) (est : String → Nat) (fuel : Nat)
    (file_paths : List String) (code : Option String) (max_tokens : Option Int)
    (reserve_tokens : Int) (ln : Bool) :
    (0 ≤ max_tokens.getD env.DEFAULT_CONTEXT_WINDOW - reserve_tokens →
      ((read_files_full env fs est fuel file_paths code max_tokens reserve_tokens
          ln).total_tokens : Int)
        ≤ max_tokens.getD env.DEFAULT_CONTEXT_WINDOW - reserve_tokens)
  ∧ (max_tokens.getD env.DEFAULT_CONTEXT_WINDOW - reserve_tokens ≤ 0 →
      (read_files_full env fs est fuel file_paths code max_tokens reserve_tokens
          ln).total_tokens = 0
      ∧ (read_files_full env fs est fuel file_paths code max_tokens reserve_tokens
          ln).file_parts = []
      ∧ (read_files_full env fs est fuel file_paths code max_tokens reserve_tokens
          ln).reads = []
      ∧ ((∀ s, s ≠ "" → 0 < est s) →
          (read_files_full env fs est fuel file_paths code max_tokens reserve_tokens
            ln).code_parts = [])) :=
  ⟨read_files_total_le env fs est fuel file_paths code max_tokens reserve_tokens ln,
    read_files_degenerate env fs est fuel file_paths code max_tokens reserve_tokens ln⟩

theorem C2_budget_hard_ceiling_witness :
    (((read_files_full envDemo fsDemo String.length 3 ["/proj/sub", "/proj/b.py"]
        (some "x = 1") (some 500) 100 false).total_tokens : Int) ≤ 500 - 100)
  ∧ ((read_files_full envDemo fsDemo String.length 3 ["/proj/sub", "/proj/b.py"]
        (some "x = 1") (some 100) 100 false).total_tokens = 0
      ∧ (read_files_full envDemo fsDemo String.length 3 ["/proj/sub", "/proj/b.py"]
          (some "x = 1") (some 100) 100 false).file_parts = []
      ∧ (read_files_full envDemo fsDemo String.length 3 ["/proj/sub", "/proj/b.py"]
          (some "x = 1") (some 100) 100 false).reads = []
      ∧ ((∀ s, s ≠ "" → 0 < String.length s) →
          (read_files_full envDemo fsDemo String.length 3 ["/proj/sub", "/proj/b.py"]
            (some "x = 1") (some 100) 100 false).code_parts = [])) :=
  ⟨(C2_budget_hard_ceiling envDemo fsDemo String.length 3 ["/proj/sub", "/proj/b.py"]
      (some "x = 1") (some 500) 100 false).1 (by decide),
    (C2_budget_hard_ceiling envDemo fsDemo String.length 3 ["/proj/sub", "/proj/b.py"]
      (some "x = 1") (some 100) 100 false).2 (by decide)⟩

/-- C8: the skip-summary block (when files were skipped) and the
`NO FILES FOUND` block (when expansion is empty but paths were supplied) are
appended unconditionally — their estimated tokens are neither added to the
used total nor checked against the remaining budget — so the token estimate
of the full returned string can exceed `max_tokens - reserve_tokens` even
though the accepted total does not. -/
theorem C8_unbudgeted_note_blocks :
    (∀ (env : Env) (fs : FS) (est : String → Nat) (fuel : Nat) (file_paths : List String)
        (code : Option String) (max_tokens : Option Int) (reserve_tokens : Int) (ln : Bool),
      ((read_files_full env fs est fuel file_paths code max_tokens reserve_tokens
          ln).files_skipped ≠ [] →
        skipNoteFor (read_files_full env fs est fuel file_paths code max_tokens reserve_tokens
            ln).files_skipped
          ∈ (read_files_full env fs est fuel file_paths code max_tokens reserve_tokens
              ln).content_parts)
      ∧ ((read_files_full env fs est fuel file_paths code max_tokens reserve_tokens
            ln).all_files = [] → file_paths ≠ [] →
          noFilesFoundBlock file_paths
            ∈ (read_files_full env fs est fuel file_paths code max_tokens reserve_tokens
                ln).content_parts))
  ∧ (∃ (env : Env) (fs : FS) (est : String → Nat) (file_paths : List String) (mt rt : Int),
      ((est (read_files env fs est 1 file_paths none (some mt) rt false) : Int) > mt - rt)
      ∧ (((read_files_full env fs est 1 file_paths none (some mt) rt
            false).total_tokens : Int) ≤ mt - rt)) := by
  constructor
  · intro env fs est fuel file_paths code max_tokens reserve_tokens ln
    simp only [read_files_full, RFResult.content_parts]
    split
    · split
      · refine ⟨fun hsk => absurd rfl hsk, fun _ _ => ?_⟩
        simp
      · rename_i hall
        constructor
        · intro hsk
          dsimp only at hsk ⊢
          rw [if_pos hsk]
          simp
        · intro habs
          exact absurd habs hall
    · rename_i hps
      exact ⟨fun hsk => absurd rfl hsk, fun _ hne => absurd (not_not.mp hps) hne⟩
  · exact ⟨envDemo, fsDemo, String.length, ["rel"], 0, 0, by decide, by decide⟩

theorem C8_unbudgeted_note_blocks_witness :
    noFilesFoundBlock ["rel"]
      ∈ (read_files_full envDemo fsDemo String.length 1 ["rel"] none (some 0) 0
          false).content_parts :=
  (C8_unbudgeted_note_blocks.1 envDemo fsDemo String.length 1 ["rel"] none (some 0) 0
    false).2 (by decide) (by decide)

theorem fileTooLargeBlock_ne_empty (p : String) (a b : Nat) : fileTooLargeBlock p a b ≠ "" := by
  intro h
  have hd := congrArg String.data h
  simp only [fileTooLargeBlock, String.data_append] at hd
  simp at hd

/-- C5: `read_file_content` never raises: a path-validation failure, a
missing file, a non-file target, and an oversized file each yield their
distinctly labeled placeholder block together with its estimated token count;
in particular a file whose byte size exceeds `max_size` is replaced by the
`FILE TOO LARGE` placeholder with a positive token count (for any estimator
positive on nonempty text) and its contents are never consulted. -/
theorem C5_read_file_content_no_raise (env : Env) (fs : FS) (est : String → Nat)
    (file_path : String) (max_size : Nat) (iln : Option Bool) :
    (∀ e, resolve_and_validate_path env fs file_path = .error e →
      read_file_content env fs est file_path max_size iln
        = (errorAccessBlock file_path
            (if workspaceRootTruthy env && env.containerExists then dockerErrorMsg env
              else pyErrMsg e),
           est (errorAccessBlock file_path
            (if workspaceRootTruthy env && env.containerExists then dockerErrorMsg env
              else pyErrMsg e))))
  ∧ (∀ q, resolve_and_validate_path env fs file_path = .ok q →
      (fs.exists_ q = false →
        read_file_content env fs est file_path max_size iln
          = (fileNotFoundBlock file_path, est (fileNotFoundBlock file_path)))
      ∧ (fs.exists_ q = true → fs.isFile q = false →
        read_file_content env fs est file_path max_size iln
          = (notAFileBlock file_path, est (notAFileBlock file_path)))
      ∧ (fs.exists_ q = true → fs.isFile q = true → max_size < fs.size q →
        (read_file_content env fs est file_path max_size iln
          = (fileTooLargeBlock file_path (fs.size q) max_size,
             est (fileTooLargeBlock file_path (fs.size q) max_size)))
        ∧ ((∀ s, s ≠ "" → 0 < est s) →
            0 < (read_file_content env fs est file_path max_size iln).2)
        ∧ (∀ g, read_file_content env { fs with content := g } est file_path max_size iln
            = read_file_content env fs est file_path max_size iln))) := by
  constructor
  · intro e hval
    simp only [read_file_content, hval]
  · intro q hval
    have htl : fs.exists_ q = true → fs.isFile q = true → max_size < fs.size q →
        read_file_content env fs est file_path max_size iln
          = (fileTooLargeBlock file_path (fs.size q) max_size,
             est (fileTooLargeBlock file_path (fs.size q) max_size)) := by
      intro hex hisf hsz
      simp only [read_file_content, hval, hex, hisf, Bool.not_true, Bool.false_eq_true,
        if_false, if_pos hsz]
    refine ⟨?_, ?_, ?_⟩
    · intro hex
      simp only [read_file_content, hval, hex, Bool.not_false, if_true]
    · intro hex hisf
      simp only [read_file_content, hval, hex, hisf, Bool.not_true, Bool.not_false,
        Bool.false_eq_true, if_false, if_true]
    · intro hex hisf hsz
      refine ⟨htl hex hisf hsz, ?_, ?_⟩
      · intro hpos
        rw [htl hex hisf hsz]
        exact hpos _ (fileTooLargeBlock_ne_empty _ _ _)
      · intro g
        have hval' : resolve_and_validate_path env { fs with content := g } file_path
            = .ok q := hval
        have htl' : read_file_content env { fs with content := g } est file_path max_size iln
            = (fileTooLargeBlock file_path (fs.size q) max_size,
               est (fileTooLargeBlock file_path (fs.size q) max_size)) := by
          simp only [read_file_content, hval', hex, hisf, Bool.not_true, Bool.false_eq_true,
            if_false, if_pos hsz]
        rw [htl', htl hex hisf hsz]

theorem C5_read_file_content_no_raise_witness :
    read_file_content envDemo fsDemo String.length "/proj/b.py" 3 none
      = (fileTooLargeBlock "/proj/b.py" (fsDemo.size ⟨true, ["proj", "b.py"]⟩) 3,
         String.length (fileTooLargeBlock "/proj/b.py" (fsDemo.size ⟨true, ["proj", "b.py"]⟩) 3)) :=
  (((C5_read_file_content_no_raise envDemo fsDemo String.length "/proj/b.py" 3 none).2
      ⟨true, ["proj", "b.py"]⟩ (by decide)).2.2 (by decide) (by decide) (by decide)).1

/-- C7: with line numbering enabled, every line of the line-ending-normalized
content is prefixed by its right-aligned line number of width
`max(4, digit-count of total line count)` followed by the `│` glyph and a
space; a 3-line file gets width 4, producing `"   1│ ..."`. -/
theorem C7_line_numbers (content : String) (i : Nat) (line : String)
    (h : (pySplit (_normalize_line_endings content) "\n")[i]? = some line) :
    (numberedLines content).length = (pySplit (_normalize_line_endings content) "\n").length
  ∧ (numberedLines content)[i]?
      = some (padNum
          (max 4 (toString (pySplit (_normalize_line_endings content) "\n").length).length)
          (i + 1) ++ "│ " ++ line)
  ∧ _add_line_numbers "a\nb\nc" = "   1│ a\n   2│ b\n   3│ c" := by
  refine ⟨?_, ?_, by decide⟩
  · simp [numberedLines]
  · simp only [numberedLines, List.getElem?_map, List.getElem?_enum, h, Option.map_some]
    rw [Nat.max_comm]
    rfl

theorem C7_line_numbers_witness :
    (numberedLines "a\nb").length = (pySplit (_normalize_line_endings "a\nb") "\n").length
  ∧ (numberedLines "a\nb")[0]?
      = some (padNum
          (max 4 (toString (pySplit (_normalize_line_endings "a\nb") "\n").length).length)
          (0 + 1) ++ "│ " ++ "a")
  ∧ _add_line_numbers "a\nb\nc" = "   1│ a\n   2│ b\n   3│ c" :=
  C7_line_numbers "a\nb" 0 "a" (by decide)

theorem validate_ok_eq (env : Env) (fs : FS) (p : String) (q : PyPath)
    (h : resolve_and_validate_path env fs p = .ok q) :
    q = fs.resolve (parsePath (translate_path_for_environment env fs p))
      ∧ (relativeTo q env.SECURITY_ROOT).isSome = true := by
  simp only [resolve_and_validate_path] at h
  split at h
  · exact absurd h (by simp)
  · split at h
    · rename_i heq
      injection h with h'
      subst h'
      exact ⟨rfl, by rw [heq]; rfl⟩
    · exact absurd h (by simp)

theorem pathToString_startsWith_slash (p : PyPath) (h : p.absolute = true) :
    strStartsWith (pathToString p) "/" = true := by
  simp [pathToString, strStartsWith, h, String.data_append, List.isPrefixOf]

theorem goodState_init : GoodState ⟨[], []⟩ :=
  ⟨List.nodup_nil, fun x => by simp, fun x hx => absurd hx (by simp)⟩

theorem addIfNew_mem (st : ExpandState) (s : String) (hG : GoodState st) :
    s ∈ (addIfNew st s).expanded_files := by
  unfold addIfNew
  split
  · rename_i hin
    exact (hG.2.1 s).mpr hin
  · simp

theorem addIfNew_mem_mono (st : ExpandState) (s x : String)
    (hx : x ∈ st.expanded_files) : x ∈ (addIfNew st s).expanded_files := by
  unfold addIfNew
  split
  · exact hx
  · simp [hx]

theorem addIfNew_good (st : ExpandState) (s : String) (hG : GoodState st)
    (habs : strStartsWith s "/" = true) : GoodState (addIfNew st s) := by
  obtain ⟨h1, h2, h3⟩ := hG
  unfold addIfNew
  split
  · exact ⟨h1, h2, h3⟩
  · rename_i hnin
    refine ⟨?_, ?_, ?_⟩
    · rw [List.nodup_append]
      exact ⟨h1, List.nodup_singleton s,
        fun x hx hxs => hnin ((List.mem_singleton.mp hxs) ▸ (h2 x).mp hx)⟩
    · intro x
      simp only [List.mem_append, List.mem_singleton]
      exact or_congr_left (h2 x)
    · intro x hx
      rcases List.mem_append.mp hx with hx' | hx'
      · exact h3 x hx'
      · exact (List.mem_singleton.mp hx') ▸ habs

theorem foldl_preserve {α β : Type} (P : β → Prop) (f : β → α → β) (l : List α) (b : β)
    (hb : P b) (hf : ∀ b a, P b → P (f b a)) : P (l.foldl f b) := by
  induction l generalizing b with
  | nil => exact hb
  | cons x xs ih => exact ih (f b x) (hf b x hb)

theorem walkLoop_good (env : Env) (fs : FS) (exts : List String) :
    ∀ (fuel : Nat) (root : PyPath) (st : ExpandState), root.absolute = true →
      GoodState st → GoodState (walkLoop env fs exts fuel root st) := by
  intro fuel
  induction fuel with
  | zero => intro root st _ hG; exact hG
  | succ n ih =>
    intro root st habs hG
    simp only [walkLoop]
    refine foldl_preserve GoodState _ _ _ ?_ (fun b a hb => ih (pathJoinName root a) b
      (by simpa [pathJoinName] using habs) hb)
    refine foldl_preserve GoodState _ _ _ hG ?_
    intro b a hb
    dsimp only
    split
    · exact hb
    · split
      · exact addIfNew_good _ _ hb
          (pathToString_startsWith_slash _ (by simpa [pathJoinName] using habs))
      · exact hb

theorem walkLoop_mem_mono (env : Env) (fs : FS) (exts : List String) :
    ∀ (fuel : Nat) (root : PyPath) (st : ExpandState) (x : String),
      x ∈ st.expanded_files → x ∈ (walkLoop env fs exts fuel root st).expanded_files := by
  intro fuel
  induction fuel with
  | zero => intro root st x hx; exact hx
  | succ n ih =>
    intro root st x hx
    simp only [walkLoop]
    refine foldl_preserve (fun (st' : ExpandState) => x ∈ st'.expanded_files) _ _ _ ?_
      (fun b a hb => ih (pathJoinName root a) b x hb)
    refine foldl_preserve (fun (st' : ExpandState) => x ∈ st'.expanded_files) _ _ _ hx ?_
    intro b a hb
    dsimp only
    split
    · exact hb
    · split
      · exact addIfNew_mem_mono _ _ _ hb
      · exact hb

theorem expandOne_good (env : Env) (fs : FS) (exts : List String) (fuel : Nat)
    (st : ExpandState) (path : String) (hG : GoodState st) :
    GoodState (expandOne env fs exts fuel st path) := by
  simp only [expandOne]
  split
  · exact hG
  · rename_i q hval
    have hqabs : q.absolute = true := by
      rw [(validate_ok_eq env fs path q hval).1]
      exact fs.resolve_abs _
    split
    · exact hG
    · split
      · exact hG
      · split
        · exact addIfNew_good _ _ hG (pathToString_startsWith_slash _ hqabs)
        · split
          · exact walkLoop_good env fs exts fuel q st hqabs hG
          · exact hG

theorem expandOne_mem_mono (env : Env) (fs : FS) (exts : List String) (fuel : Nat)
    (st : ExpandState) (path : String) (x : String)
    (hx : x ∈ st.expanded_files) : x ∈ (expandOne env fs exts fuel st path).expanded_files := by
  simp only [expandOne]
  split
  · exact hx
  · split
    · exact hx
    · split
      · exact hx
      · split
        · exact addIfNew_mem_mono _ _ _ hx
        · split
          · exact walkLoop_mem_mono env fs exts fuel _ st x hx
          · exact hx

theorem expandOne_direct_file (env : Env) (fs : FS) (exts : List String) (fuel : Nat)
    (st : ExpandState) (path : String) (q : PyPath) (hG : GoodState st)
    (hval : resolve_and_validate_path env fs path = .ok q)
    (hex : fs.exists_ q = true) (hisf : fs.isFile q = true) (hnd : fs.isDir q = false) :
    pathToString q ∈ (expandOne env fs exts fuel st path).expanded_files := by
  simp only [expandOne, hval, hex, hisf, hnd, Bool.not_true, Bool.false_and,
    Bool.false_eq_true, if_false, if_true]
  exact addIfNew_mem st _ hG

theorem expand_fold_mem (env : Env) (fs : FS) (exts : List String) (fuel : Nat)
    (paths : List String) (st : ExpandState) (hG : GoodState st) (path : String)
    (hp : path ∈ paths) (x : String)
    (hstep : ∀ st', GoodState st' → x ∈ (expandOne env fs exts fuel st' path).expanded_files) :
    x ∈ (paths.foldl (expandOne env fs exts fuel) st).expanded_files := by
  induction paths generalizing st with
  | nil => cases hp
  | cons a as ih =>
    rw [List.foldl_cons]
    rcases List.mem_cons.mp hp with rfl | hp'
    · exact foldl_preserve (fun (st'' : ExpandState) => x ∈ st''.expanded_files) _ as _
        (hstep st hG) (fun b c hb => expandOne_mem_mono env fs exts fuel b c x hb)
    · exact ih (expandOne env fs exts fuel st a)
        (expandOne_good env fs exts fuel st a hG) hp'

/-- C6: `expand_paths` returns a lexicographically sorted list of absolute
file paths with no duplicates; in particular expanding `[dir, fileInsideDir]`
on the concrete demo filesystem yields `fileInsideDir` exactly once. -/
theorem C6_expand_paths_sorted_nodup_absolute (env : Env) (fs : FS) (fuel : Nat)
    (paths : List String) (extensions : Option (List String)) :
    List.Sorted (fun a b => strLe a b = true) (expand_paths env fs fuel paths extensions)
  ∧ (expand_paths env fs fuel paths extensions).Nodup
  ∧ (∀ x ∈ expand_paths env fs fuel paths extensions, strStartsWith x "/" = true)
  ∧ (expand_paths envDemo fsDemo 3 ["/proj/sub", "/proj/sub/a.py"] none).count
      "/proj/sub/a.py" = 1 := by
  have hG : GoodState (paths.foldl
      (expandOne env fs (extensions.getD env.CODE_EXTENSIONS) fuel) ⟨[], []⟩) :=
    foldl_preserve GoodState _ paths ⟨[], []⟩ goodState_init
      (fun b a hb => expandOne_good env fs _ fuel b a hb)
  refine ⟨?_, ?_, ?_, by decide⟩
  · simp only [expand_paths]
    exact sortStrings_sorted _
  · simp only [expand_paths]
    exact ((sortStrings_perm _).nodup_iff).mpr hG.1
  · simp only [expand_paths]
    intro x hx
    exact hG.2.2 x ((sortStrings_perm _).mem_iff.mp hx)

theorem C6_expand_paths_sorted_nodup_absolute_witness :
    strStartsWith "/proj/sub/a.py" "/" = true :=
  (C6_expand_paths_sorted_nodup_absolute envDemo fsDemo 3 ["/proj/sub", "/proj/sub/a.py"]
    none).2.2.1 "/proj/sub/a.py" (by decide)

/-- C10: an input path that passes validation and is an existing regular file
is appended unconditionally: the extension filter and the hidden-name filter
apply only to files discovered during directory traversal, so a directly
listed hidden file or one with an out-of-filter extension is still returned
(the theorem quantifies over every extension set and every file name). -/
theorem C10_direct_file_unfiltered (env : Env) (fs : FS) (fuel : Nat)
    (paths : List String) (extensions : Option (List String)) (path : String) (q : PyPath)
    (hp : path ∈ paths)
    (hval : resolve_and_validate_path env fs path = .ok q)
    (hex : fs.exists_ q = true) (hisf : fs.isFile q = true) (hnd : fs.isDir q = false) :
    pathToString q ∈ expand_paths env fs fuel paths extensions := by
  simp only [expand_paths]
  apply (sortStrings_perm _).mem_iff.mpr
  exact expand_fold_mem env fs (extensions.getD env.CODE_EXTENSIONS) fuel paths ⟨[], []⟩
    goodState_init path hp (pathToString q)
    (fun st' hG' => expandOne_direct_file env fs _ fuel st' path q hG' hval hex hisf hnd)

theorem C10_direct_file_unfiltered_witness :
    pathToString ⟨true, ["proj", ".env"]⟩
      ∈ expand_paths envDemo fsDemo 1 ["/proj/.env"] (some [".py"]) :=
  C10_direct_file_unfiltered envDemo fsDemo 1 ["/proj/.env"] (some [".py"]) "/proj/.env"
    ⟨true, ["proj", ".env"]⟩ (by decide) (by decide) (by decide) (by decide) (by decide)
